import Mathlib

/-!
Verification of the migraid migration runner (src/lib/migrator.mjs,
src/unnamed/part_000, src/models/migration.model.{mjs,cjs}).

The JavaScript source is shallowly embedded: filesystem contents, stat
results and database state are explicit arguments; promises are modelled
as plain values; a thrown error is an `Except.error`.
-/

deriving instance DecidableEq for Except

namespace Migraid

/-! ### Filename codec: `Migrator.interpretFilename`

The source matches `filename.match(/([\w_]+)\.([\w-_]+)\.js/)`: an
UNanchored JavaScript regex.  JS semantics: try every start position from
the left; at a position, group 1 `[\w_]+` is matched greedily with
backtracking, then a literal dot, then group 2 `[\w-_]+` greedily with
backtracking, then the literal `.js`.  `matches[0]` is the matched
substring, `matches[1]`/`matches[2]` the groups.  We embed exactly that
backtracking search. -/

/-- JS `\w`: ASCII letters, digits and underscore (the class `[\w_]`). -/
def isWordChar (c : Char) : Bool :=
  (('a' ≤ c && c ≤ 'z') || ('A' ≤ c && c ≤ 'Z') || ('0' ≤ c && c ≤ '9')) || c = '_'

/-- The class `[\w-_]`: word characters or hyphen. -/
def isLabelChar (c : Char) : Bool :=
  isWordChar c || c = '-'

/-- Does the list start with the literal `.js`? -/
def startsWithDotJs : List Char → Bool
  | '.' :: 'j' :: 's' :: _ => true
  | _ => false

/-- Backtracking for group 2 (`[\w-_]+` greedy, then `.js`).
`brev` is the current (reversed) candidate for group 2, `rest` what
follows it; a failing candidate is shrunk by one character from the
right, which is returned to the front of `rest`. -/
def tryBRev : List Char → List Char → Option (List Char)
  | [], _ => none
  | c :: brev, rest =>
    if startsWithDotJs rest then some ((c :: brev).reverse)
    else tryBRev brev (c :: rest)

/-- After group 1: a literal dot, then group 2, then `.js`.
Returns group 2 on success. -/
def matchDotLabelJs : List Char → Option (List Char)
  | '.' :: rest =>
    let maxB := rest.takeWhile isLabelChar
    tryBRev maxB.reverse (rest.drop maxB.length)
  | _ => none

/-- Backtracking for group 1 (`[\w_]+` greedy).  `arev` is the reversed
candidate for group 1.  Returns (group 1, group 2). -/
def tryARev : List Char → List Char → Option (List Char × List Char)
  | [], _ => none
  | c :: arev, rest =>
    match matchDotLabelJs rest with
    | some b => some ((c :: arev).reverse, b)
    | none => tryARev arev (c :: rest)

/-- Leftmost match: try the pattern at every start position. -/
def findMatchAux : List Char → Option (List Char × List Char)
  | [] => none
  | c :: rest =>
    let maxA := (c :: rest).takeWhile isWordChar
    match tryARev maxA.reverse ((c :: rest).drop maxA.length) with
    | some r => some r
    | none => findMatchAux rest

/-- The record built from `matches[0..2]` in `interpretFilename`. -/
structure MigrationFileProperties where
  fileName : String
  datetime : String
  migrationName : String
deriving DecidableEq, Repr

/-- `Migrator.interpretFilename` (src/lib/migrator.mjs:239): match the
filename against `/([\w_]+)\.([\w-_]+)\.js/`; on failure throw; on
success return `matches[0]` as `fileName`, `matches[1]` as `datetime`,
`matches[2]` as `migrationName`. -/
def interpretFilename (filename : String) : Except String MigrationFileProperties :=
  match findMatchAux filename.data with
  | none => .error ("Filename \"" ++ filename ++
      "\" does not match the required migration filename pattern. Please add the file using \"npx migraid create\"")
  | some (a, b) =>
    .ok { fileName := String.mk (a ++ '.' :: (b ++ ['.', 'j', 's']))
          datetime := String.mk a
          migrationName := String.mk b }

/-- Whether the WHOLE string has the shape `<sortKey>.<label>.js`
(nonempty `[\w_]+`, a dot, nonempty `[\w-_]+`, then `.js`) — i.e. what an
anchored version of the pattern would accept. -/
def hasFullShape (s : String) : Bool :=
  (List.range (s.data.length + 1)).any (fun i =>
    let a := s.data.take i
    let rest := s.data.drop i
    !a.isEmpty && a.all isWordChar &&
      (match rest with
       | '.' :: r2 =>
         decide (4 ≤ r2.length) &&
         (r2.take (r2.length - 3)).all isLabelChar &&
         (r2.drop (r2.length - 3) == ['.', 'j', 's'])
       | _ => false))

/-! ### Migration source reader: `Migrator.getMigrationFileNames`

Embedding of src/lib/migrator.mjs:180-224.  Inputs: the directory
listing (`readdir` succeeded; its failure is rethrown before this logic
runs), the per-entry `stat` outcome (`none` models a rejected stat
promise, after which the source dereferences `undefined`), and which
compiled `.js` files `fs.promises.access` finds. -/

/-- Does the character list end with `.ts`? -/
def endsWithDotTs (l : List Char) : Bool :=
  match l.reverse with
  | 's' :: 't' :: '.' :: _ => true
  | _ => false

/-- Node `path.extname(fileName) == ".ts"`: the name ends in `.ts` and
the final dot is not the first character of the basename. -/
def extnameIsTs (fileName : String) : Bool :=
  endsWithDotTs fileName.data && decide (3 < fileName.data.length)

/-- `fileName.replace(/\.ts$/, '.js')`. -/
def tsToJs (fileName : String) : String :=
  if endsWithDotTs fileName.data then
    String.mk (fileName.data.take (fileName.data.length - 3) ++ ['.', 'j', 's'])
  else fileName

/-- How one run of `getMigrationFileNames` can throw. -/
inductive ListFilesError where
  /-- `stats` is `undefined` after a failed `stat`, so `stats.isDirectory()`
  throws a TypeError that names no file. -/
  | typeError
  /-- A TypeScript migration file with no compiled JavaScript artifact;
  the thrown message names both files. -/
  | missingJavascriptFile (tsFile jsFile : String)
  /-- `interpretFilename` threw on the compiled name. -/
  | invalidFilenameFormat (message : String)
deriving DecidableEq, Repr

/-- `Migrator.getMigrationFileNames` (src/lib/migrator.mjs:180): for each
directory entry, stat it (a stat failure is only logged, then
`stats.isDirectory()` crashes), skip directories and non-`.ts`
extensions, require the corresponding `.js` artifact and throw naming
both paths when it is missing, then collect `interpretFilename` of the
JavaScript name. -/
def getMigrationFileNames (entries : List String) (statResult : String → Option Bool)
    (jsExists : String → Bool) : Except ListFilesError (List MigrationFileProperties) :=
  match entries with
  | [] => .ok []
  | fileName :: rest =>
    match statResult fileName with
    | none => .error .typeError
    | some isDir =>
      if isDir then getMigrationFileNames rest statResult jsExists
      else if !extnameIsTs fileName then getMigrationFileNames rest statResult jsExists
      else
        let javascriptFilename := tsToJs fileName
        if !jsExists javascriptFilename then
          .error (.missingJavascriptFile fileName javascriptFilename)
        else
          match interpretFilename javascriptFilename with
          | .error message => .error (.invalidFilenameFormat message)
          | .ok props =>
            (getMigrationFileNames rest statResult jsExists).map (props :: ·)

/-! ### Applied-set store: `Migrator.getDeployedMigrations` and the model
factory (src/models/migration.model.mjs) -/

/-- A persisted record of the `_migrations` collection: `_id` is the
migration file name, `createdAt` the Mongoose `timestamps` field. -/
structure MigrationDocument where
  _id : String
  createdAt : Nat
deriving DecidableEq, Repr

/-- `Migrator.getDeployedMigrations` (src/lib/migrator.mjs:230): map the
documents `Migration.find()` returns to their `_id`. -/
def getDeployedMigrations (docs : List MigrationDocument) : List String :=
  docs.map (·._id)

/-- The Mongoose model produced by the factory; only the collection it is
bound to matters here. -/
structure MigrationModel where
  migrationCollection : String
deriving DecidableEq, Repr

/-- The module-level `let migrationModel` cache of
src/models/migration.model.mjs. -/
structure ModelModuleState where
  migrationModel : Option MigrationModel
deriving DecidableEq, Repr

/-- The default export of src/models/migration.model.mjs: return the
cached model if one exists, else build a model bound to
`migrationCollection` and cache it. -/
def migrationModelFactory (migrationCollection : String) (st : ModelModuleState) :
    MigrationModel × ModelModuleState :=
  match st.migrationModel with
  | some m => (m, st)
  | none =>
    let m : MigrationModel := { migrationCollection := migrationCollection }
    (m, { migrationModel := some m })

/-! ### Reconciliation engine: `Migrator.up` (src/lib/migrator.mjs:85-139)

The dynamically imported migration module is abstracted to its observable
behaviour per file name: either its `up` property is `undefined`, or
calling `up(connection)` rejects with an error, or it resolves. -/

/-- Behaviour of the module loaded for one migration file. -/
inductive MigrationBehavior where
  | noUp
  | upFails (err : String)
  | upSucceeds
deriving DecidableEq, Repr

/-- How `up` can throw. -/
inductive UpError where
  /-- `throw new Error("NO_UP_FUNCTION_AVAILABLE")`. -/
  | noUpFunction
  /-- The error from the failing `up(connection)` call, rethrown. -/
  | executionError (err : String)
deriving DecidableEq, Repr

/-- Observable effects of one `up` run: which migrations completed their
`up(connection)` call and which were saved to the `_migrations`
collection, each in execution order. -/
structure UpState where
  succeeded : List String
  recorded : List String
deriving DecidableEq, Repr

/-- The `for (const newMigrationFileName of newMigrationFileNames)` loop:
load the module, throw if it has no `up`, run `up` (rethrowing its
error), then save the `_id := fileName` record before the next file. -/
def runMigrations (behavior : String → MigrationBehavior) :
    List String → UpState → UpState × Except UpError Unit
  | [], st => (st, .ok ())
  | f :: rest, st =>
    match behavior f with
    | .noUp => (st, .error .noUpFunction)
    | .upFails err => (st, .error (.executionError err))
    | .upSucceeds =>
      runMigrations behavior rest
        { succeeded := st.succeeded ++ [f], recorded := st.recorded ++ [f] }

/-- The loop over `migrationFileNames` that pushes each file name not in
`existingMigrations`, in discovery order. -/
def newMigrationFileNamesOf (migrationFileNames : List MigrationFileProperties)
    (existingMigrations : List String) : List String :=
  (migrationFileNames.map (·.fileName)).filter (fun f => !existingMigrations.contains f)

/-- `newMigrationFileNames.sort()`: JavaScript default sort, i.e. a stable
sort by plain lexicographic string comparison. -/
def sortedNewMigrations (migrationFileNames : List MigrationFileProperties)
    (existingMigrations : List String) : List String :=
  (newMigrationFileNamesOf migrationFileNames existingMigrations).mergeSort
    (fun a b => a ≤ b)

/-- Everything observable about one `Migrator.up` run. -/
structure UpRun where
  state : UpState
  /-- `some r` iff the "No new migration scripts found" branch ran, where
  `r` is the logged `existingMigrations[existingMigrations.length - 1]`
  (`none` inside models JS `undefined`). -/
  noNewReport : Option (Option String)
  result : Except UpError (List String)
deriving DecidableEq, Repr

/-- `Migrator.up` (src/lib/migrator.mjs:85): compute the file names not
yet deployed; when none, log the last deployed migration and resolve with
`[]`; otherwise sort them, execute each in order (recording each success
before the next), and resolve with the sorted list. -/
def Migrator.up (migrationFileNames : List MigrationFileProperties)
    (existingMigrations : List String) (behavior : String → MigrationBehavior) : UpRun :=
  let newMigrationFileNames := newMigrationFileNamesOf migrationFileNames existingMigrations
  if newMigrationFileNames.length = 0 then
    { state := { succeeded := [], recorded := [] }
      noNewReport := some existingMigrations.getLast?
      result := .ok [] }
  else
    let sorted := sortedNewMigrations migrationFileNames existingMigrations
    let (st, res) := runMigrations behavior sorted { succeeded := [], recorded := [] }
    { state := st
      noNewReport := none
      result := match res with | .ok _ => .ok sorted | .error e => .error e }

/-! ### Scaffold generator: `Migrator.createMigrationFile`
(src/lib/migrator.mjs:146-174).  `moment().format('YYYYMMDD_HHmmss')` is
passed in as `nowFormatted`; the write outcome is an argument. -/

/-- JS `\s`: ECMAScript WhiteSpace and LineTerminator characters. -/
def isJsWhitespace (c : Char) : Bool :=
  c ∈ ['\t', '\n', '\x0b', '\x0c', '\r', ' ',
    '\u00A0', '\u1680', '\u2000', '\u2001', '\u2002', '\u2003', '\u2004',
    '\u2005', '\u2006', '\u2007', '\u2008', '\u2009', '\u200A',
    '\u2028', '\u2029', '\u202F', '\u205F', '\u3000', '\uFEFF']

/-- `migrationName.toLocaleLowerCase().replace(/\s/g, '-')`. -/
def slugify (migrationName : String) : String :=
  String.mk (migrationName.data.map (fun c =>
    let lowered := c.toLower
    if isJsWhitespace lowered then '-' else lowered))

/-- `path.join(a, b)` for the plain relative segments used here. -/
def pathJoin (a b : String) : String :=
  if a = "" then b else a ++ "/" ++ b

/-- The fixed template written into a new migration file. -/
def migrationTemplate : String :=
  "\x69mport \x7baxLogger\x7d from \"../lib/ax-logger/ax-logger.js\";\n" ++
  "\x69mport \x7bConnection\x7d from \"mongoose\";\n\nexport default \x7b\n" ++
  "    up : async (connection: Connection) => \x7b\n" ++
  "        // Write migration code here\n    \x7d\n\x7d;"

/-- Outcome of `createMigrationFile`: the files written (path, contents)
and the returned path or thrown error. -/
structure CreateResult where
  written : List (String × String)
  result : Except String String
deriving DecidableEq, Repr

/-- `Migrator.createMigrationFile` (src/lib/migrator.mjs:146): throw
`MISSING_MIGRATION_NAME` when `migrationName` is falsy; otherwise write
the template to `<sourcesDirectory>/<now>.<slug>.ts` (rethrowing a write
failure) and return that path.  `migrationName = none` models a call
without a name. -/
def createMigrationFile (sourcesDirectory : String) (nowFormatted : String)
    (migrationName : Option String) (writeSucceeds : String → Bool) : CreateResult :=
  match migrationName with
  | none => { written := [], result := .error "MISSING_MIGRATION_NAME" }
  | some name =>
    if name = "" then { written := [], result := .error "MISSING_MIGRATION_NAME" }
    else
      let migrationFileName := nowFormatted ++ "." ++ slugify name ++ ".ts"
      let migrationFilePath := pathJoin sourcesDirectory migrationFileName
      if writeSucceeds migrationFilePath then
        { written := [(migrationFilePath, migrationTemplate)]
          result := .ok migrationFilePath }
      else
        { written := [], result := .error "WRITE_FAILED" }

/-! ## Helper lemmas about the reconciliation engine -/

theorem runMigrations_allSuccess (behavior : String → MigrationBehavior) (l : List String)
    (st : UpState) (h : ∀ f ∈ l, behavior f = .upSucceeds) :
    runMigrations behavior l st =
      ({ succeeded := st.succeeded ++ l, recorded := st.recorded ++ l }, .ok ()) := by
  induction l generalizing st with
  | nil => simp [runMigrations]
  | cons f rest ih =>
    have hf : behavior f = .upSucceeds := h f (by simp)
    have := ih { succeeded := st.succeeded ++ [f], recorded := st.recorded ++ [f] }
      (fun g hg => h g (by simp [hg]))
    simp [runMigrations, hf, this]

theorem runMigrations_failAt (behavior : String → MigrationBehavior) (l₁ : List String)
    (x : String) (l₂ : List String) (st : UpState)
    (h1 : ∀ f ∈ l₁, behavior f = .upSucceeds) (h2 : behavior x ≠ .upSucceeds) :
    ∃ e, runMigrations behavior (l₁ ++ x :: l₂) st =
      ({ succeeded := st.succeeded ++ l₁, recorded := st.recorded ++ l₁ }, .error e) := by
  induction l₁ generalizing st with
  | nil =>
    cases hb : behavior x with
    | noUp => exact ⟨.noUpFunction, by simp [runMigrations, hb]⟩
    | upFails err => exact ⟨.executionError err, by simp [runMigrations, hb]⟩
    | upSucceeds => exact absurd hb h2
  | cons f rest ih =>
    have hf : behavior f = .upSucceeds := h1 f (by simp)
    obtain ⟨e, he⟩ := ih { succeeded := st.succeeded ++ [f], recorded := st.recorded ++ [f] }
      (fun g hg => h1 g (by simp [hg]))
    exact ⟨e, by simp [runMigrations, hf, he]⟩

theorem mem_newMigrationFileNamesOf {f : String} {c : List MigrationFileProperties}
    {e : List String} :
    f ∈ newMigrationFileNamesOf c e ↔ f ∈ c.map (fun p => p.fileName) ∧ f ∉ e := by
  simp [newMigrationFileNamesOf, List.mem_filter, List.elem_iff]

theorem sortedNewMigrations_perm (c : List MigrationFileProperties) (e : List String) :
    List.Perm (sortedNewMigrations c e) (newMigrationFileNamesOf c e) :=
  List.mergeSort_perm _ _

theorem mem_sortedNewMigrations {f : String} {c : List MigrationFileProperties}
    {e : List String} :
    f ∈ sortedNewMigrations c e ↔ f ∈ c.map (fun p => p.fileName) ∧ f ∉ e := by
  rw [(sortedNewMigrations_perm c e).mem_iff]; exact mem_newMigrationFileNamesOf

theorem sortedNewMigrations_sorted (c : List MigrationFileProperties) (e : List String) :
    List.Sorted (· ≤ ·) (sortedNewMigrations c e) :=
  List.sorted_mergeSort' _

theorem sortedNewMigrations_nodup {c : List MigrationFileProperties} {e : List String}
    (h : (c.map (fun p => p.fileName)).Nodup) : (sortedNewMigrations c e).Nodup :=
  ((sortedNewMigrations_perm c e).nodup_iff).2 (h.filter _)

theorem sortedNewMigrations_eq_nil {c : List MigrationFileProperties} {e : List String}
    (h : newMigrationFileNamesOf c e = []) : sortedNewMigrations c e = [] := by
  simp [sortedNewMigrations, h, List.mergeSort_nil]

theorem up_noPending {c : List MigrationFileProperties} {e : List String}
    {b : String → MigrationBehavior} (h : newMigrationFileNamesOf c e = []) :
    Migrator.up c e b =
      { state := { succeeded := [], recorded := [] }
        noNewReport := some e.getLast?
        result := .ok [] } := by
  simp [Migrator.up, h]

theorem up_pending {c : List MigrationFileProperties} {e : List String}
    {b : String → MigrationBehavior} (h : ¬ newMigrationFileNamesOf c e = []) :
    Migrator.up c e b =
      { state := (runMigrations b (sortedNewMigrations c e) { succeeded := [], recorded := [] }).1
        noNewReport := none
        result :=
          match (runMigrations b (sortedNewMigrations c e) { succeeded := [], recorded := [] }).2 with
          | .ok _ => .ok (sortedNewMigrations c e)
          | .error err => .error err } := by
  have h0 : ¬ (newMigrationFileNamesOf c e).length = 0 := by
    simpa [List.length_eq_zero] using h
  simp only [Migrator.up, h0, if_false, sortedNewMigrations]

theorem up_allSuccess {c : List MigrationFileProperties} {e : List String}
    {b : String → MigrationBehavior} (h : ∀ f, b f = .upSucceeds) :
    (Migrator.up c e b).state.succeeded = sortedNewMigrations c e ∧
    (Migrator.up c e b).state.recorded = sortedNewMigrations c e ∧
    (Migrator.up c e b).result = .ok (sortedNewMigrations c e) := by
  by_cases hemp : newMigrationFileNamesOf c e = []
  · rw [up_noPending hemp, sortedNewMigrations_eq_nil hemp]
    exact ⟨rfl, rfl, rfl⟩
  · rw [up_pending hemp, runMigrations_allSuccess b _ _ (fun f _ => h f)]
    simp

theorem up_failAt {c : List MigrationFileProperties} {e : List String}
    {b : String → MigrationBehavior} {pre post : List String} {x : String}
    (hdecomp : sortedNewMigrations c e = pre ++ x :: post)
    (hbefore : ∀ f ∈ pre, b f = .upSucceeds) (hfail : b x ≠ .upSucceeds) :
    (Migrator.up c e b).state.succeeded = pre ∧
    (Migrator.up c e b).state.recorded = pre ∧
    ∃ err, (Migrator.up c e b).result = .error err := by
  have hemp : ¬ newMigrationFileNamesOf c e = [] := by
    intro h0
    rw [sortedNewMigrations_eq_nil h0] at hdecomp
    exact List.append_ne_nil_of_right_ne_nil pre (List.cons_ne_nil x post) hdecomp.symm
  obtain ⟨err, herr⟩ := runMigrations_failAt b pre x post
    { succeeded := [], recorded := [] } hbefore hfail
  rw [up_pending hemp, hdecomp, herr]
  exact ⟨by simp, by simp, err, by simp⟩

theorem runMigrations_isPrefixRun (b : String → MigrationBehavior) (l : List String)
    (st : UpState) :
    ∃ l', (runMigrations b l st).1.succeeded = st.succeeded ++ l' ∧
      (runMigrations b l st).1.recorded = st.recorded ++ l' ∧ l' <+: l := by
  induction l generalizing st with
  | nil => exact ⟨[], by simp [runMigrations], by simp [runMigrations], [], rfl⟩
  | cons f rest ih =>
    cases hb : b f with
    | noUp => exact ⟨[], by simp [runMigrations, hb], by simp [runMigrations, hb], f :: rest, rfl⟩
    | upFails err =>
      exact ⟨[], by simp [runMigrations, hb], by simp [runMigrations, hb], f :: rest, rfl⟩
    | upSucceeds =>
      obtain ⟨l', h1, h2, t, ht⟩ := ih { succeeded := st.succeeded ++ [f], recorded := st.recorded ++ [f] }
      refine ⟨f :: l', ?_, ?_, t, ?_⟩
      · simp only [runMigrations, hb, h1]
        simp
      · simp only [runMigrations, hb, h2]
        simp
      · rw [List.cons_append, ht]

/-- Concrete string-list sortedness can be checked through `toList`,
where the order is kernel-decidable. -/
theorem sorted_le_of_toList {l : List String}
    (h : List.Sorted (fun a b : String => a.toList ≤ b.toList) l) :
    List.Sorted (fun a b : String => a ≤ b) l :=
  h.imp (fun hab => String.le_iff_toList_le.2 hab)

/-! ## Claims -/

/-- Claim C1: for every candidate set and applied set, `up` applies
exactly the set difference (candidates on disk minus applied records),
each element exactly once, and when every step succeeds it resolves with
the list of those file names in execution order. -/
theorem claim_C1 (candidates : List MigrationFileProperties) (existing : List String)
    (behavior : String → MigrationBehavior)
    (hnodup : (candidates.map (fun p => p.fileName)).Nodup)
    (hsucc : ∀ f, behavior f = .upSucceeds) :
    (Migrator.up candidates existing behavior).result =
      .ok (Migrator.up candidates existing behavior).state.recorded ∧
    (Migrator.up candidates existing behavior).state.succeeded =
      (Migrator.up candidates existing behavior).state.recorded ∧
    (Migrator.up candidates existing behavior).state.recorded.Nodup ∧
    (∀ f, f ∈ (Migrator.up candidates existing behavior).state.recorded ↔
      f ∈ candidates.map (fun p => p.fileName) ∧ f ∉ existing) := by
  obtain ⟨hsuc, hrec, hres⟩ := up_allSuccess (c := candidates) (e := existing) hsucc
  rw [hsuc, hrec, hres]
  exact ⟨rfl, rfl, sortedNewMigrations_nodup hnodup, fun f => mem_sortedNewMigrations⟩

/-- Witness for C1 at a concrete two-candidate, one-applied input. -/
theorem claim_C1_witness :
    (([⟨"20240102_000000.b.js", "20240102_000000", "b"⟩,
       ⟨"20240101_000000.a.js", "20240101_000000", "a"⟩] :
        List MigrationFileProperties).map (fun p => p.fileName)).Nodup ∧
    ((Migrator.up
        [⟨"20240102_000000.b.js", "20240102_000000", "b"⟩,
         ⟨"20240101_000000.a.js", "20240101_000000", "a"⟩]
        ["20240101_000000.a.js"] (fun _ => .upSucceeds)).result =
      .ok (Migrator.up
        [⟨"20240102_000000.b.js", "20240102_000000", "b"⟩,
         ⟨"20240101_000000.a.js", "20240101_000000", "a"⟩]
        ["20240101_000000.a.js"] (fun _ => .upSucceeds)).state.recorded ∧
     (Migrator.up
        [⟨"20240102_000000.b.js", "20240102_000000", "b"⟩,
         ⟨"20240101_000000.a.js", "20240101_000000", "a"⟩]
        ["20240101_000000.a.js"] (fun _ => .upSucceeds)).state.succeeded =
      (Migrator.up
        [⟨"20240102_000000.b.js", "20240102_000000", "b"⟩,
         ⟨"20240101_000000.a.js", "20240101_000000", "a"⟩]
        ["20240101_000000.a.js"] (fun _ => .upSucceeds)).state.recorded ∧
     (Migrator.up
        [⟨"20240102_000000.b.js", "20240102_000000", "b"⟩,
         ⟨"20240101_000000.a.js", "20240101_000000", "a"⟩]
        ["20240101_000000.a.js"] (fun _ => .upSucceeds)).state.recorded.Nodup ∧
     (∀ f, f ∈ (Migrator.up
        [⟨"20240102_000000.b.js", "20240102_000000", "b"⟩,
         ⟨"20240101_000000.a.js", "20240101_000000", "a"⟩]
        ["20240101_000000.a.js"] (fun _ => .upSucceeds)).state.recorded ↔
       f ∈ ([⟨"20240102_000000.b.js", "20240102_000000", "b"⟩,
             ⟨"20240101_000000.a.js", "20240101_000000", "a"⟩] :
              List MigrationFileProperties).map (fun p => p.fileName) ∧
       f ∉ ["20240101_000000.a.js"])) :=
  ⟨by decide,
   claim_C1
     [⟨"20240102_000000.b.js", "20240102_000000", "b"⟩,
      ⟨"20240101_000000.a.js", "20240101_000000", "a"⟩]
     ["20240101_000000.a.js"] (fun _ => .upSucceeds) (by decide) (fun _ => rfl)⟩

/-- Claim C2: `up` sorts the pending file names ascending (plain
lexicographic string order) before executing any of them: the executed
sequence is always sorted, and for candidates with sort keys
`20240101_000000`, `20240102_000000`, `20240103_000000` all unapplied,
they execute in exactly that chronological order regardless of the
discovery order. -/
theorem claim_C2 :
    (∀ (candidates : List MigrationFileProperties) (existing : List String)
        (behavior : String → MigrationBehavior),
      List.Sorted (· ≤ ·) (Migrator.up candidates existing behavior).state.succeeded) ∧
    (∀ (candidates : List MigrationFileProperties) (behavior : String → MigrationBehavior),
      (∀ f, behavior f = .upSucceeds) →
      List.Perm (candidates.map (fun p => p.fileName))
        ["20240101_000000.a.js", "20240102_000000.b.js", "20240103_000000.c.js"] →
      (Migrator.up candidates [] behavior).state.succeeded =
        ["20240101_000000.a.js", "20240102_000000.b.js", "20240103_000000.c.js"] ∧
      (Migrator.up candidates [] behavior).result =
        .ok ["20240101_000000.a.js", "20240102_000000.b.js", "20240103_000000.c.js"]) := by
  constructor
  · intro candidates existing behavior
    by_cases hemp : newMigrationFileNamesOf candidates existing = []
    · rw [up_noPending hemp]
      exact List.sorted_nil
    · rw [up_pending hemp]
      obtain ⟨l', h1, _, hpre⟩ :=
        runMigrations_isPrefixRun behavior (sortedNewMigrations candidates existing)
          { succeeded := [], recorded := [] }
      simp only [h1, List.nil_append]
      exact List.Pairwise.sublist hpre.sublist (sortedNewMigrations_sorted candidates existing)
  · intro candidates behavior hsucc hperm
    have hnof : newMigrationFileNamesOf candidates [] = candidates.map (fun p => p.fileName) := by
      simp [newMigrationFileNamesOf]
    have hsortEq : sortedNewMigrations candidates [] =
        ["20240101_000000.a.js", "20240102_000000.b.js", "20240103_000000.c.js"] := by
      refine List.eq_of_perm_of_sorted ?_ (sortedNewMigrations_sorted candidates [])
        (sorted_le_of_toList (by decide))
      exact ((sortedNewMigrations_perm candidates []).trans (hnof ▸ hperm))
    obtain ⟨hsuc, _, hres⟩ := up_allSuccess (c := candidates) (e := []) hsucc
    rw [hsuc, hres, hsortEq]
    exact ⟨rfl, rfl⟩

/-- Witness for C2 at a scrambled discovery order. -/
theorem claim_C2_witness :
    (∀ f, (fun _ : String => MigrationBehavior.upSucceeds) f = .upSucceeds) ∧
    List.Perm (([⟨"20240103_000000.c.js", "20240103_000000", "c"⟩,
       ⟨"20240101_000000.a.js", "20240101_000000", "a"⟩,
       ⟨"20240102_000000.b.js", "20240102_000000", "b"⟩] :
        List MigrationFileProperties).map (fun p => p.fileName))
      ["20240101_000000.a.js", "20240102_000000.b.js", "20240103_000000.c.js"] ∧
    ((Migrator.up
        [⟨"20240103_000000.c.js", "20240103_000000", "c"⟩,
         ⟨"20240101_000000.a.js", "20240101_000000", "a"⟩,
         ⟨"20240102_000000.b.js", "20240102_000000", "b"⟩]
        [] (fun _ => .upSucceeds)).state.succeeded =
      ["20240101_000000.a.js", "20240102_000000.b.js", "20240103_000000.c.js"] ∧
     (Migrator.up
        [⟨"20240103_000000.c.js", "20240103_000000", "c"⟩,
         ⟨"20240101_000000.a.js", "20240101_000000", "a"⟩,
         ⟨"20240102_000000.b.js", "20240102_000000", "b"⟩]
        [] (fun _ => .upSucceeds)).result =
      .ok ["20240101_000000.a.js", "20240102_000000.b.js", "20240103_000000.c.js"]) :=
  ⟨fun _ => rfl, by decide,
   claim_C2.2
     [⟨"20240103_000000.c.js", "20240103_000000", "c"⟩,
      ⟨"20240101_000000.a.js", "20240101_000000", "a"⟩,
      ⟨"20240102_000000.b.js", "20240102_000000", "b"⟩]
     (fun _ => .upSucceeds) (fun _ => rfl) (by decide)⟩

/-- A concrete evaluation of `sortedNewMigrations`, shared by the
witnesses (the merge sort itself is irreducible, so we go through the
permutation and sortedness characterisation). -/
theorem sortedNewMigrations_concreteTwo :
    sortedNewMigrations
      [⟨"20240101_000000.a.js", "20240101_000000", "a"⟩,
       ⟨"20240102_000000.b.js", "20240102_000000", "b"⟩] [] =
      ["20240101_000000.a.js", "20240102_000000.b.js"] := by
  refine List.eq_of_perm_of_sorted ?_ (sortedNewMigrations_sorted _ _)
    (sorted_le_of_toList (by decide))
  refine (sortedNewMigrations_perm _ _).trans ?_
  simp [newMigrationFileNamesOf]

/-- Claim C3: if the k-th pending migration fails (its module has no
`up`, or `up` rejects), `up` propagates a failure and aborts: every
pending migration before the failing one is recorded as applied, and the
failing one and every later pending migration are neither successfully
executed nor recorded.  The sorted pending list is decomposed as
`pre ++ x :: post` with `x` the k-th entry. -/
theorem claim_C3 (candidates : List MigrationFileProperties) (existing : List String)
    (behavior : String → MigrationBehavior) (pre post : List String) (x : String)
    (hnodup : (candidates.map (fun p => p.fileName)).Nodup)
    (hdecomp : sortedNewMigrations candidates existing = pre ++ x :: post)
    (hbefore : ∀ f ∈ pre, behavior f = .upSucceeds)
    (hfail : behavior x ≠ .upSucceeds) :
    (∃ err, (Migrator.up candidates existing behavior).result = .error err) ∧
    (Migrator.up candidates existing behavior).state.recorded = pre ∧
    (Migrator.up candidates existing behavior).state.succeeded = pre ∧
    (∀ f ∈ x :: post,
      f ∉ (Migrator.up candidates existing behavior).state.succeeded ∧
      f ∉ (Migrator.up candidates existing behavior).state.recorded) := by
  obtain ⟨hsuc, hrec, herr⟩ := up_failAt hdecomp hbefore hfail
  refine ⟨herr, hrec, hsuc, ?_⟩
  have hnd : (pre ++ x :: post).Nodup := by
    rw [← hdecomp]; exact sortedNewMigrations_nodup hnodup
  have hdisj : List.Disjoint pre (x :: post) := (List.nodup_append.1 hnd).2.2
  intro f hf
  rw [hsuc, hrec]
  exact ⟨fun hmem => hdisj hmem hf, fun hmem => hdisj hmem hf⟩

/-- Witness for C3: two pending migrations, the second one failing. -/
theorem claim_C3_witness :
    (([⟨"20240101_000000.a.js", "20240101_000000", "a"⟩,
       ⟨"20240102_000000.b.js", "20240102_000000", "b"⟩] :
        List MigrationFileProperties).map (fun p => p.fileName)).Nodup ∧
    sortedNewMigrations
      [⟨"20240101_000000.a.js", "20240101_000000", "a"⟩,
       ⟨"20240102_000000.b.js", "20240102_000000", "b"⟩] [] =
      ["20240101_000000.a.js"] ++ "20240102_000000.b.js" :: [] ∧
    ((∃ err, (Migrator.up
        [⟨"20240101_000000.a.js", "20240101_000000", "a"⟩,
         ⟨"20240102_000000.b.js", "20240102_000000", "b"⟩] []
        (fun f => if f = "20240102_000000.b.js" then .upFails "boom" else .upSucceeds)).result =
        .error err) ∧
     (Migrator.up
        [⟨"20240101_000000.a.js", "20240101_000000", "a"⟩,
         ⟨"20240102_000000.b.js", "20240102_000000", "b"⟩] []
        (fun f => if f = "20240102_000000.b.js" then .upFails "boom" else .upSucceeds)).state.recorded =
       ["20240101_000000.a.js"] ∧
     (Migrator.up
        [⟨"20240101_000000.a.js", "20240101_000000", "a"⟩,
         ⟨"20240102_000000.b.js", "20240102_000000", "b"⟩] []
        (fun f => if f = "20240102_000000.b.js" then .upFails "boom" else .upSucceeds)).state.succeeded =
       ["20240101_000000.a.js"] ∧
     (∀ f ∈ "20240102_000000.b.js" :: [],
       f ∉ (Migrator.up
        [⟨"20240101_000000.a.js", "20240101_000000", "a"⟩,
         ⟨"20240102_000000.b.js", "20240102_000000", "b"⟩] []
        (fun f => if f = "20240102_000000.b.js" then .upFails "boom" else .upSucceeds)).state.succeeded ∧
       f ∉ (Migrator.up
        [⟨"20240101_000000.a.js", "20240101_000000", "a"⟩,
         ⟨"20240102_000000.b.js", "20240102_000000", "b"⟩] []
        (fun f => if f = "20240102_000000.b.js" then .upFails "boom" else .upSucceeds)).state.recorded)) :=
  ⟨by decide, sortedNewMigrations_concreteTwo,
   claim_C3
     [⟨"20240101_000000.a.js", "20240101_000000", "a"⟩,
      ⟨"20240102_000000.b.js", "20240102_000000", "b"⟩] []
     (fun f => if f = "20240102_000000.b.js" then .upFails "boom" else .upSucceeds)
     ["20240101_000000.a.js"] [] "20240102_000000.b.js"
     (by decide) sortedNewMigrations_concreteTwo (by decide) (by decide)⟩

/-- After a fully successful run, nothing is pending any more. -/
theorem newMigrationFileNamesOf_after_allSuccess {c : List MigrationFileProperties}
    {A : List String} :
    newMigrationFileNamesOf c (A ++ sortedNewMigrations c A) = [] := by
  rw [newMigrationFileNamesOf, List.filter_eq_nil_iff]
  intro f hf
  by_cases hA : f ∈ A
  · simp [List.elem_iff, List.mem_append, hA]
  · simp [List.elem_iff, List.mem_append, mem_sortedNewMigrations.2 ⟨hf, hA⟩]

/-- After a run that failed at `x` (sorted pending `pre ++ x :: post`,
`pre` recorded), the pending set of a fresh run against the extended
applied set is exactly `x :: post`, already in sorted order. -/
theorem sortedNewMigrations_resume {c : List MigrationFileProperties}
    {A pre post : List String} {x : String}
    (hnodup : (c.map (fun p => p.fileName)).Nodup)
    (hdecomp : sortedNewMigrations c A = pre ++ x :: post) :
    sortedNewMigrations c (A ++ pre) = x :: post := by
  have hndS : (pre ++ x :: post).Nodup := by
    rw [← hdecomp]; exact sortedNewMigrations_nodup hnodup
  have hdisj : List.Disjoint pre (x :: post) := (List.nodup_append.1 hndS).2.2
  have hsorted : List.Sorted (fun a b : String => a ≤ b) (x :: post) := by
    have hs := sortedNewMigrations_sorted c A
    rw [hdecomp] at hs
    exact List.Pairwise.sublist (List.sublist_append_right pre (x :: post)) hs
  have hperm : List.Perm (newMigrationFileNamesOf c (A ++ pre)) (x :: post) := by
    refine (List.perm_ext_iff_of_nodup (hnodup.filter _) (List.nodup_append.1 hndS).2.1).2 ?_
    intro f
    constructor
    · intro hfm
      obtain ⟨hfc, hfA2⟩ := mem_newMigrationFileNamesOf.1 hfm
      have hfA : f ∉ A := fun h => hfA2 (List.mem_append_left _ h)
      have hfpre : f ∉ pre := fun h => hfA2 (List.mem_append_right _ h)
      have hfs : f ∈ pre ++ x :: post := by
        rw [← hdecomp]; exact mem_sortedNewMigrations.2 ⟨hfc, hfA⟩
      rcases List.mem_append.1 hfs with h | h
      · exact absurd h hfpre
      · exact h
    · intro hfm
      have hfs : f ∈ sortedNewMigrations c A := by
        rw [hdecomp]; exact List.mem_append_right _ hfm
      obtain ⟨hfc, hfA⟩ := mem_sortedNewMigrations.1 hfs
      refine mem_newMigrationFileNamesOf.2 ⟨hfc, ?_⟩
      intro hmem
      rcases List.mem_append.1 hmem with h | h
      · exact hfA h
      · exact hdisj h hfm
  exact List.eq_of_perm_of_sorted ((sortedNewMigrations_perm _ _).trans hperm)
    (sortedNewMigrations_sorted _ _) hsorted

/-- Claim C4: state is committed per migration, so (idempotence) a second
run over the applied set extended by the first run's records applies
nothing, and (resumability) after a run aborted at the failing pending
migration `x`, a fresh run applies exactly `x` and all later pending
migrations, in order. -/
theorem claim_C4 :
    (∀ (candidates : List MigrationFileProperties) (applied : List String)
        (behavior behavior₂ : String → MigrationBehavior),
      (∀ f, behavior f = .upSucceeds) →
      (Migrator.up candidates
          (applied ++ (Migrator.up candidates applied behavior).state.recorded)
          behavior₂).result = .ok [] ∧
      (Migrator.up candidates
          (applied ++ (Migrator.up candidates applied behavior).state.recorded)
          behavior₂).state.recorded = [] ∧
      (Migrator.up candidates
          (applied ++ (Migrator.up candidates applied behavior).state.recorded)
          behavior₂).state.succeeded = []) ∧
    (∀ (candidates : List MigrationFileProperties) (applied : List String)
        (behavior behavior₂ : String → MigrationBehavior) (pre post : List String) (x : String),
      (candidates.map (fun p => p.fileName)).Nodup →
      sortedNewMigrations candidates applied = pre ++ x :: post →
      (∀ f ∈ pre, behavior f = .upSucceeds) →
      behavior x ≠ .upSucceeds →
      (∀ f, behavior₂ f = .upSucceeds) →
      (Migrator.up candidates
          (applied ++ (Migrator.up candidates applied behavior).state.recorded)
          behavior₂).state.recorded = x :: post ∧
      (Migrator.up candidates
          (applied ++ (Migrator.up candidates applied behavior).state.recorded)
          behavior₂).result = .ok (x :: post)) := by
  constructor
  · intro candidates applied behavior behavior₂ hsucc
    obtain ⟨_, hrec, _⟩ := up_allSuccess (c := candidates) (e := applied) hsucc
    rw [hrec, up_noPending newMigrationFileNamesOf_after_allSuccess]
    exact ⟨rfl, rfl, rfl⟩
  · intro candidates applied behavior behavior₂ pre post x hnodup hdecomp hbefore hfail hsucc₂
    obtain ⟨_, hrec, _⟩ := up_failAt hdecomp hbefore hfail
    rw [hrec]
    obtain ⟨_, hrec₂, hres₂⟩ :=
      up_allSuccess (c := candidates) (e := applied ++ pre) hsucc₂
    rw [hrec₂, hres₂, sortedNewMigrations_resume hnodup hdecomp]
    exact ⟨rfl, rfl⟩

/-- Witness for C4: idempotence after a successful run, and resumability
after a run that failed on the second of two pending migrations. -/
theorem claim_C4_witness :
    ((∀ f, (fun _ : String => MigrationBehavior.upSucceeds) f = .upSucceeds) ∧
     (Migrator.up
        [⟨"20240101_000000.a.js", "20240101_000000", "a"⟩,
         ⟨"20240102_000000.b.js", "20240102_000000", "b"⟩]
        ([] ++ (Migrator.up
          [⟨"20240101_000000.a.js", "20240101_000000", "a"⟩,
           ⟨"20240102_000000.b.js", "20240102_000000", "b"⟩] []
          (fun _ => .upSucceeds)).state.recorded)
        (fun _ => .upSucceeds)).result = .ok [] ∧
     (Migrator.up
        [⟨"20240101_000000.a.js", "20240101_000000", "a"⟩,
         ⟨"20240102_000000.b.js", "20240102_000000", "b"⟩]
        ([] ++ (Migrator.up
          [⟨"20240101_000000.a.js", "20240101_000000", "a"⟩,
           ⟨"20240102_000000.b.js", "20240102_000000", "b"⟩] []
          (fun _ => .upSucceeds)).state.recorded)
        (fun _ => .upSucceeds)).state.recorded = [] ∧
     (Migrator.up
        [⟨"20240101_000000.a.js", "20240101_000000", "a"⟩,
         ⟨"20240102_000000.b.js", "20240102_000000", "b"⟩]
        ([] ++ (Migrator.up
          [⟨"20240101_000000.a.js", "20240101_000000", "a"⟩,
           ⟨"20240102_000000.b.js", "20240102_000000", "b"⟩] []
          (fun _ => .upSucceeds)).state.recorded)
        (fun _ => .upSucceeds)).state.succeeded = []) ∧
    ((Migrator.up
        [⟨"20240101_000000.a.js", "20240101_000000", "a"⟩,
         ⟨"20240102_000000.b.js", "20240102_000000", "b"⟩]
        ([] ++ (Migrator.up
          [⟨"20240101_000000.a.js", "20240101_000000", "a"⟩,
           ⟨"20240102_000000.b.js", "20240102_000000", "b"⟩] []
          (fun f => if f = "20240102_000000.b.js" then .upFails "boom" else .upSucceeds)).state.recorded)
        (fun _ => .upSucceeds)).state.recorded = "20240102_000000.b.js" :: [] ∧
     (Migrator.up
        [⟨"20240101_000000.a.js", "20240101_000000", "a"⟩,
         ⟨"20240102_000000.b.js", "20240102_000000", "b"⟩]
        ([] ++ (Migrator.up
          [⟨"20240101_000000.a.js", "20240101_000000", "a"⟩,
           ⟨"20240102_000000.b.js", "20240102_000000", "b"⟩] []
          (fun f => if f = "20240102_000000.b.js" then .upFails "boom" else .upSucceeds)).state.recorded)
        (fun _ => .upSucceeds)).result = .ok ("20240102_000000.b.js" :: [])) :=
  ⟨⟨fun _ => rfl,
    claim_C4.1
      [⟨"20240101_000000.a.js", "20240101_000000", "a"⟩,
       ⟨"20240102_000000.b.js", "20240102_000000", "b"⟩] []
      (fun _ => .upSucceeds) (fun _ => .upSucceeds) (fun _ => rfl)⟩,
   claim_C4.2
     [⟨"20240101_000000.a.js", "20240101_000000", "a"⟩,
      ⟨"20240102_000000.b.js", "20240102_000000", "b"⟩] []
     (fun f => if f = "20240102_000000.b.js" then .upFails "boom" else .upSucceeds)
     (fun _ => .upSucceeds)
     ["20240101_000000.a.js"] [] "20240102_000000.b.js"
     (by decide) sortedNewMigrations_concreteTwo (by decide) (by decide) (fun _ => rfl)⟩

/-- In a list of documents whose creation timestamps are ascending, the
last element carries the maximal timestamp. -/
theorem pairwise_createdAt_getLast {l : List MigrationDocument}
    (hs : l.Pairwise (fun a b => a.createdAt ≤ b.createdAt)) (h : l ≠ []) :
    ∀ d ∈ l, d.createdAt ≤ (l.getLast h).createdAt := by
  induction l with
  | nil => exact absurd rfl h
  | cons a t ih =>
    intro d hd
    cases t with
    | nil =>
      rcases List.mem_cons.1 hd with rfl | hdt
      · exact le_rfl
      · exact absurd hdt (List.not_mem_nil d)
    | cons b t' =>
      rw [List.getLast_cons (List.cons_ne_nil b t')]
      rcases List.mem_cons.1 hd with rfl | hdt
      · exact (List.pairwise_cons.1 hs).1 _ (List.getLast_mem (List.cons_ne_nil b t'))
      · exact ih (List.pairwise_cons.1 hs).2 (List.cons_ne_nil b t') d hdt

/-- Counterexample to claim C5 as stated: the source (migrator.mjs:102)
reports `existingMigrations[existingMigrations.length - 1]`, the last
element of an unsorted `Migration.find()` result, and imposes no order on
that result.  For the same non-empty applied set returned by the store in
two different orders (both runs having an empty pending set and
terminating successfully with an empty result), `up` reports two
different identifiers; in the second order the reported identifier
belongs to the record with the SMALLER applied timestamp and is also
lexicographically below the other recorded id.  Hence the report is not
a deterministic function of the applied set, and is in general neither
the applied-timestamp maximum nor the lexicographic maximum. -/
theorem claim_C5_counterexample :
    List.Perm
      (getDeployedMigrations [⟨"20240102_000000.b.js", 2⟩, ⟨"20240101_000000.a.js", 1⟩])
      (getDeployedMigrations [⟨"20240101_000000.a.js", 1⟩, ⟨"20240102_000000.b.js", 2⟩]) ∧
    (Migrator.up
        [⟨"20240101_000000.a.js", "20240101_000000", "a"⟩,
         ⟨"20240102_000000.b.js", "20240102_000000", "b"⟩]
        (getDeployedMigrations [⟨"20240101_000000.a.js", 1⟩, ⟨"20240102_000000.b.js", 2⟩])
        (fun _ => .upSucceeds)).result = .ok [] ∧
    (Migrator.up
        [⟨"20240101_000000.a.js", "20240101_000000", "a"⟩,
         ⟨"20240102_000000.b.js", "20240102_000000", "b"⟩]
        (getDeployedMigrations [⟨"20240101_000000.a.js", 1⟩, ⟨"20240102_000000.b.js", 2⟩])
        (fun _ => .upSucceeds)).noNewReport = some (some "20240102_000000.b.js") ∧
    (Migrator.up
        [⟨"20240101_000000.a.js", "20240101_000000", "a"⟩,
         ⟨"20240102_000000.b.js", "20240102_000000", "b"⟩]
        (getDeployedMigrations [⟨"20240102_000000.b.js", 2⟩, ⟨"20240101_000000.a.js", 1⟩])
        (fun _ => .upSucceeds)).result = .ok [] ∧
    (Migrator.up
        [⟨"20240101_000000.a.js", "20240101_000000", "a"⟩,
         ⟨"20240102_000000.b.js", "20240102_000000", "b"⟩]
        (getDeployedMigrations [⟨"20240102_000000.b.js", 2⟩, ⟨"20240101_000000.a.js", 1⟩])
        (fun _ => .upSucceeds)).noNewReport = some (some "20240101_000000.a.js") ∧
    ("20240101_000000.a.js" : String) ≠ "20240102_000000.b.js" ∧
    "20240101_000000.a.js".toList < "20240102_000000.b.js".toList ∧
    (1 : Nat) < 2 :=
  ⟨by decide, by decide, by decide, by decide, by decide, by decide, by decide, by decide⟩

/-- Claim C5 (amended): when nothing is pending, `up` terminates
successfully with an empty result, applies nothing, and reports the `_id`
of the last record returned by the store; whenever the store returns the
records in ascending applied-timestamp order (e.g. insertion order), that
reported identifier is the most-recently-applied one.  (As stated, the
claim fails: the report varies with the store's return order, see the
counterexample.) -/
theorem claim_C5 (candidates : List MigrationFileProperties) (docs : List MigrationDocument)
    (behavior : String → MigrationBehavior)
    (hsorted : docs.Pairwise (fun a b => a.createdAt ≤ b.createdAt))
    (hne : docs ≠ [])
    (hpending : newMigrationFileNamesOf candidates (getDeployedMigrations docs) = []) :
    (Migrator.up candidates (getDeployedMigrations docs) behavior).result = .ok [] ∧
    (Migrator.up candidates (getDeployedMigrations docs) behavior).state.recorded = [] ∧
    (Migrator.up candidates (getDeployedMigrations docs) behavior).state.succeeded = [] ∧
    (Migrator.up candidates (getDeployedMigrations docs) behavior).noNewReport =
      some (some ((docs.getLast hne)._id)) ∧
    (∀ d ∈ docs, d.createdAt ≤ (docs.getLast hne).createdAt) := by
  rw [up_noPending hpending]
  refine ⟨rfl, rfl, rfl, ?_, pairwise_createdAt_getLast hsorted hne⟩
  rw [getDeployedMigrations, List.getLast?_map, List.getLast?_eq_getLast docs hne]
  rfl

/-- Witness for C5: two applied records, no pending candidates. -/
theorem claim_C5_witness :
    ([⟨"20240101_000000.a.js", 1⟩, ⟨"20240102_000000.b.js", 2⟩] :
        List MigrationDocument).Pairwise (fun a b => a.createdAt ≤ b.createdAt) ∧
    ([⟨"20240101_000000.a.js", 1⟩, ⟨"20240102_000000.b.js", 2⟩] :
        List MigrationDocument) ≠ [] ∧
    newMigrationFileNamesOf
      [⟨"20240101_000000.a.js", "20240101_000000", "a"⟩,
       ⟨"20240102_000000.b.js", "20240102_000000", "b"⟩]
      (getDeployedMigrations [⟨"20240101_000000.a.js", 1⟩, ⟨"20240102_000000.b.js", 2⟩]) = [] ∧
    ((Migrator.up
        [⟨"20240101_000000.a.js", "20240101_000000", "a"⟩,
         ⟨"20240102_000000.b.js", "20240102_000000", "b"⟩]
        (getDeployedMigrations [⟨"20240101_000000.a.js", 1⟩, ⟨"20240102_000000.b.js", 2⟩])
        (fun _ => .upSucceeds)).result = .ok [] ∧
     (Migrator.up
        [⟨"20240101_000000.a.js", "20240101_000000", "a"⟩,
         ⟨"20240102_000000.b.js", "20240102_000000", "b"⟩]
        (getDeployedMigrations [⟨"20240101_000000.a.js", 1⟩, ⟨"20240102_000000.b.js", 2⟩])
        (fun _ => .upSucceeds)).state.recorded = [] ∧
     (Migrator.up
        [⟨"20240101_000000.a.js", "20240101_000000", "a"⟩,
         ⟨"20240102_000000.b.js", "20240102_000000", "b"⟩]
        (getDeployedMigrations [⟨"20240101_000000.a.js", 1⟩, ⟨"20240102_000000.b.js", 2⟩])
        (fun _ => .upSucceeds)).state.succeeded = [] ∧
     (Migrator.up
        [⟨"20240101_000000.a.js", "20240101_000000", "a"⟩,
         ⟨"20240102_000000.b.js", "20240102_000000", "b"⟩]
        (getDeployedMigrations [⟨"20240101_000000.a.js", 1⟩, ⟨"20240102_000000.b.js", 2⟩])
        (fun _ => .upSucceeds)).noNewReport =
       some (some ((([⟨"20240101_000000.a.js", 1⟩, ⟨"20240102_000000.b.js", 2⟩] :
          List MigrationDocument).getLast (by decide))._id)) ∧
     (∀ d ∈ ([⟨"20240101_000000.a.js", 1⟩, ⟨"20240102_000000.b.js", 2⟩] :
          List MigrationDocument),
       d.createdAt ≤ (([⟨"20240101_000000.a.js", 1⟩, ⟨"20240102_000000.b.js", 2⟩] :
          List MigrationDocument).getLast (by decide)).createdAt)) :=
  ⟨by decide, by decide, by decide,
   claim_C5
     [⟨"20240101_000000.a.js", "20240101_000000", "a"⟩,
      ⟨"20240102_000000.b.js", "20240102_000000", "b"⟩]
     [⟨"20240101_000000.a.js", 1⟩, ⟨"20240102_000000.b.js", 2⟩]
     (fun _ => .upSucceeds) (by decide) (by decide) (by decide)⟩

/-- Processing a directory listing is compositional: a prefix of entries
is processed first, and its failure short-circuits the rest. -/
theorem getMigrationFileNames_append (pre rest : List String)
    (statResult : String → Option Bool) (jsExists : String → Bool) :
    getMigrationFileNames (pre ++ rest) statResult jsExists =
      match getMigrationFileNames pre statResult jsExists with
      | .ok l => (getMigrationFileNames rest statResult jsExists).map (fun r => l ++ r)
      | .error e => .error e := by
  induction pre with
  | nil =>
    simp only [List.nil_append, getMigrationFileNames]
    cases getMigrationFileNames rest statResult jsExists <;> simp [Except.map]
  | cons f pre' ih =>
    simp only [List.cons_append, getMigrationFileNames]
    cases hst : statResult f with
    | none => rfl
    | some isDir =>
      cases isDir
      · simp only [Bool.false_eq_true, if_false]
        by_cases hts : extnameIsTs f
        · simp only [hts, Bool.not_true, Bool.false_eq_true, if_false]
          by_cases hjs : jsExists (tsToJs f)
          · simp only [hjs, Bool.not_true, Bool.false_eq_true, if_false]
            cases hint : interpretFilename (tsToJs f) with
            | error message => rfl
            | ok props =>
              simp only [List.append_eq, ih]
              cases getMigrationFileNames pre' statResult jsExists with
              | error e => rfl
              | ok l =>
                cases getMigrationFileNames rest statResult jsExists <;>
                  simp [Except.map]
          · simp [hjs]
        · simp only [hts, Bool.not_false, if_true]
          exact ih
      · simp only [if_true]
        exact ih

/-- Claim C6: a discovered `.ts` migration file with no corresponding
compiled `.js` artifact makes discovery fail with an error naming both
the authored and the compiled file, instead of yielding that candidate. -/
theorem claim_C6 (pre post : List String) (tsFile : String)
    (statResult : String → Option Bool) (jsExists : String → Bool)
    (hpre : ∃ l, getMigrationFileNames pre statResult jsExists = .ok l)
    (hstat : statResult tsFile = some false)
    (hts : extnameIsTs tsFile = true)
    (hnojs : jsExists (tsToJs tsFile) = false) :
    getMigrationFileNames (pre ++ tsFile :: post) statResult jsExists =
      .error (.missingJavascriptFile tsFile (tsToJs tsFile)) := by
  obtain ⟨l, hl⟩ := hpre
  rw [getMigrationFileNames_append, hl]
  simp [getMigrationFileNames, hstat, hts, hnojs, Except.map]

/-- Witness for C6: a `.ts` entry after a skipped non-migration entry,
with no compiled artifact present. -/
theorem claim_C6_witness :
    (∃ l, getMigrationFileNames ["readme.md"] (fun _ => some false) (fun _ => false) = .ok l) ∧
    ((fun _ : String => some false) "20240101_000000.foo.ts" = some false) ∧
    extnameIsTs "20240101_000000.foo.ts" = true ∧
    ((fun _ : String => false) (tsToJs "20240101_000000.foo.ts") = false) ∧
    getMigrationFileNames (["readme.md"] ++ "20240101_000000.foo.ts" :: [])
      (fun _ => some false) (fun _ => false) =
      .error (.missingJavascriptFile "20240101_000000.foo.ts"
        (tsToJs "20240101_000000.foo.ts")) :=
  ⟨⟨[], by decide⟩, rfl, by decide, rfl,
   claim_C6 ["readme.md"] [] "20240101_000000.foo.ts"
     (fun _ => some false) (fun _ => false) ⟨[], by decide⟩ rfl (by decide) rfl⟩

/-- Claim C9: a failed per-entry stat is only logged; the run then calls
`stats.isDirectory()` on `undefined` and crashes with a type error that
carries no file attribution, instead of a typed directory/file error. -/
theorem claim_C9 (pre post : List String) (entry : String)
    (statResult : String → Option Bool) (jsExists : String → Bool)
    (hpre : ∃ l, getMigrationFileNames pre statResult jsExists = .ok l)
    (hstat : statResult entry = none) :
    getMigrationFileNames (pre ++ entry :: post) statResult jsExists = .error .typeError ∧
    (∀ tsFile jsFile, (ListFilesError.typeError : ListFilesError) ≠
      .missingJavascriptFile tsFile jsFile) ∧
    (∀ message, (ListFilesError.typeError : ListFilesError) ≠
      .invalidFilenameFormat message) := by
  obtain ⟨l, hl⟩ := hpre
  refine ⟨?_, fun _ _ => by simp, fun _ => by simp⟩
  rw [getMigrationFileNames_append, hl]
  simp [getMigrationFileNames, hstat, Except.map]

/-- Witness for C9: the stat of the second entry fails. -/
theorem claim_C9_witness :
    (∃ l, getMigrationFileNames ["readme.md"]
      (fun f => if f = "broken.ts" then none else some false) (fun _ => true) = .ok l) ∧
    ((fun f : String => if f = "broken.ts" then none else some false) "broken.ts" = none) ∧
    (getMigrationFileNames (["readme.md"] ++ "broken.ts" :: ["20240101_000000.foo.ts"])
      (fun f => if f = "broken.ts" then none else some false) (fun _ => true) =
      .error .typeError ∧
     (∀ tsFile jsFile, (ListFilesError.typeError : ListFilesError) ≠
       .missingJavascriptFile tsFile jsFile) ∧
     (∀ message, (ListFilesError.typeError : ListFilesError) ≠
       .invalidFilenameFormat message)) :=
  ⟨⟨[], by decide⟩, by decide,
   claim_C9 ["readme.md"] ["20240101_000000.foo.ts"] "broken.ts"
     (fun f => if f = "broken.ts" then none else some false) (fun _ => true)
     ⟨[], by decide⟩ (by decide)⟩

/-- Claim C7: `createMigrationFile` throws `MISSING_MIGRATION_NAME` for
an absent or empty name and writes nothing; for every non-empty name it
writes exactly one file `<now>.<slugified name>.ts` containing the fixed
template and returns its path; slugifying the example name `Add Users`
yields `add-users`. -/
theorem claim_C7 (sourcesDirectory nowFormatted : String) (writeSucceeds : String → Bool) :
    (createMigrationFile sourcesDirectory nowFormatted none writeSucceeds).result =
      .error "MISSING_MIGRATION_NAME" ∧
    (createMigrationFile sourcesDirectory nowFormatted none writeSucceeds).written = [] ∧
    (createMigrationFile sourcesDirectory nowFormatted (some "") writeSucceeds).result =
      .error "MISSING_MIGRATION_NAME" ∧
    (createMigrationFile sourcesDirectory nowFormatted (some "") writeSucceeds).written = [] ∧
    (∀ name : String, name ≠ "" → (∀ p, writeSucceeds p = true) →
      createMigrationFile sourcesDirectory nowFormatted (some name) writeSucceeds =
        { written := [(pathJoin sourcesDirectory
            (nowFormatted ++ "." ++ slugify name ++ ".ts"), migrationTemplate)]
          result := .ok (pathJoin sourcesDirectory
            (nowFormatted ++ "." ++ slugify name ++ ".ts")) }) ∧
    slugify "Add Users" = "add-users" := by
  refine ⟨rfl, rfl, rfl, rfl, ?_, by decide⟩
  intro name hne hw
  simp [createMigrationFile, hne, hw]

/-- Witness for C7 at the name `Add Users`. -/
theorem claim_C7_witness :
    ("Add Users" : String) ≠ "" ∧
    createMigrationFile "migrations" "20240101_120000" (some "Add Users") (fun _ => true) =
      { written := [(pathJoin "migrations"
          ("20240101_120000" ++ "." ++ slugify "Add Users" ++ ".ts"), migrationTemplate)]
        result := .ok (pathJoin "migrations"
          ("20240101_120000" ++ "." ++ slugify "Add Users" ++ ".ts")) } :=
  ⟨by decide,
   (claim_C7 "migrations" "20240101_120000" (fun _ => true)).2.2.2.2.1
     "Add Users" (by decide) (fun _ => rfl)⟩

/-- Claim C8: the filename pattern is matched unanchored, so there are
inputs that do not have the `<sortKey>.<label>.js` shape as a whole for
which `interpretFilename` succeeds and returns a `fileName` that is a
proper substring of the input. -/
theorem claim_C8 :
    hasFullShape "a.b.c.js" = false ∧
    interpretFilename "a.b.c.js" =
      .ok { fileName := "b.c.js", datetime := "b", migrationName := "c" } ∧
    "a.b.c.js" = "a." ++ "b.c.js" ∧
    ("b.c.js" : String) ≠ "a.b.c.js" ∧
    hasFullShape "20240101_000000.foo.js.bak" = false ∧
    interpretFilename "20240101_000000.foo.js.bak" =
      .ok { fileName := "20240101_000000.foo.js", datetime := "20240101_000000",
            migrationName := "foo" } ∧
    "20240101_000000.foo.js.bak" = "20240101_000000.foo.js" ++ ".bak" ∧
    ("20240101_000000.foo.js" : String) ≠ "20240101_000000.foo.js.bak" := by
  exact ⟨by decide, by decide, by decide, by decide, by decide, by decide, by decide, by decide⟩

/-- Claim C10: the migration-model factory is a cached singleton: the
first call binds the model to the collection given then, and every later
call returns that same model, ignoring its own collection argument. -/
theorem claim_C10 (c₁ c₂ : String) (st' : ModelModuleState) (m : MigrationModel)
    (hfirst : migrationModelFactory c₁ { migrationModel := none } = (m, st')) :
    m.migrationCollection = c₁ ∧
    st'.migrationModel = some m ∧
    migrationModelFactory c₂ st' = (m, st') ∧
    (∀ (c : String) (st : ModelModuleState) (m₀ : MigrationModel),
      st.migrationModel = some m₀ → migrationModelFactory c st = (m₀, st)) := by
  have hm : m = { migrationCollection := c₁ } := by
    have h := congrArg Prod.fst hfirst
    simpa [migrationModelFactory] using h.symm
  have hst : st' = { migrationModel := some { migrationCollection := c₁ } } := by
    have h := congrArg Prod.snd hfirst
    simpa [migrationModelFactory] using h.symm
  subst hm
  subst hst
  refine ⟨rfl, rfl, by simp [migrationModelFactory], ?_⟩
  intro c st m₀ h
  simp [migrationModelFactory, h]

/-- Witness for C10: a first call with `_migrations`, a second call with a
different collection name. -/
theorem claim_C10_witness :
    migrationModelFactory "_migrations" { migrationModel := none } =
      ({ migrationCollection := "_migrations" },
       { migrationModel := some { migrationCollection := "_migrations" } }) ∧
    (({ migrationCollection := "_migrations" } : MigrationModel).migrationCollection =
      "_migrations" ∧
     ({ migrationModel := some { migrationCollection := "_migrations" } } :
        ModelModuleState).migrationModel = some { migrationCollection := "_migrations" } ∧
     migrationModelFactory "someOtherCollection"
       { migrationModel := some { migrationCollection := "_migrations" } } =
       ({ migrationCollection := "_migrations" },
        { migrationModel := some { migrationCollection := "_migrations" } }) ∧
     (∀ (c : String) (st : ModelModuleState) (m₀ : MigrationModel),
       st.migrationModel = some m₀ → migrationModelFactory c st = (m₀, st))) :=
  ⟨rfl,
   claim_C10 "_migrations" "someOtherCollection"
     { migrationModel := some { migrationCollection := "_migrations" } }
     { migrationCollection := "_migrations" } rfl⟩

end Migraid
